import Mathlib

/-!
Verification of the AudioSub-Master functional core: time formatting,
SRT serialization, file validation, the UI processing state machine,
and the transcription client, shallowly embedded from the TypeScript
source (`src/utils/helpers.ts`, `src/services/gemini.ts`, and the App
component).
-/

set_option maxHeartbeats 1000000
set_option maxRecDepth 10000

namespace AudioSub

/-- `SubtitleSegment` from `src/types` (part_000): one transcribed and
translated utterance.  Timestamps are non-negative integer milliseconds
(the spec's data model restricts them to non-negative integers). -/
structure SubtitleSegment where
  id : Nat
  startMs : Nat
  endMs : Nat
  original : String
  translation : String
  deriving Repr, DecidableEq

/-- JavaScript `String.prototype.padStart(n, c)`: prepend copies of `c`
until the length is at least `n`; a string already of length `≥ n` is
returned unchanged. -/
def padStart (s : String) (n : Nat) (c : Char) : String :=
  String.mk (List.replicate (n - s.data.length) c) ++ s

/-- `n.toString().padStart(2, '0')` on a natural number. -/
def pad2 (n : Nat) : String := padStart (toString n) 2 '0'

/-- `n.toString().padStart(3, '0')` on a natural number. -/
def pad3 (n : Nat) : String := padStart (toString n) 3 '0'

/-- `formatTime` from `src/utils/helpers.ts` lines 3-10.  The source
builds `new Date(ms)` and reads `getUTCHours`, `getUTCMinutes`,
`getUTCSeconds`, `getUTCMilliseconds`; for a non-negative integer `ms`
these are `ms / 3600000 % 24`, `ms / 60000 % 60`, `ms / 1000 % 60` and
`ms % 1000` (zero-offset decomposition of the epoch offset).  Each field
is zero-padded exactly as the source pads it. -/
def formatTime (ms : Nat) : String :=
  let hours := pad2 (ms / 3600000 % 24)
  let minutes := pad2 (ms / 60000 % 60)
  let seconds := pad2 (ms / 1000 % 60)
  let milliseconds := pad3 (ms % 1000)
  hours ++ ":" ++ minutes ++ ":" ++ seconds ++ "," ++ milliseconds

/-- One block of `generateSRT` (`src/utils/helpers.ts` lines 13-18): the
template literal `` `${index + 1}\n${formatTime(...)} --> ${formatTime(...)}\n${seg.original}\n${seg.translation}\n` ``
(note the newline before the closing backtick). -/
def srtBlock (index : Nat) (seg : SubtitleSegment) : String :=
  toString (index + 1) ++ "\n" ++
    formatTime seg.startMs ++ " --> " ++ formatTime seg.endMs ++ "\n" ++
    seg.original ++ "\n" ++ seg.translation ++ "\n"

/-- `generateSRT` from `src/utils/helpers.ts` lines 12-20:
`segments.map((seg, index) => block).join('\n')`. -/
def generateSRT (segments : List SubtitleSegment) : String :=
  String.intercalate "\n" (segments.mapIdx fun index seg => srtBlock index seg)

/-- JavaScript `s.split('.')` (split on the one-character separator
`'.'`): the list of maximal chunks between dots.  It is never empty —
`"".split('.')` is `[""]` — and a leading or trailing dot contributes an
empty chunk, exactly as in JavaScript. -/
def jsSplitDot (s : String) : List String :=
  (go s.data []).map String.mk
where
  go : List Char → List Char → List (List Char)
    | [], acc => [acc.reverse]
    | c :: rest, acc =>
        if c = '.' then acc.reverse :: go rest [] else go rest (c :: acc)

/-- The download file name computed by `handleDownloadSRT` (App
component, line 112): `` `${file?.name.split('.')[0] || 'subtitle'}.srt` ``.
`fileName` is `file?.name` (`none` when no file is selected); optional
chaining makes the whole interpolation `undefined` then, and `||`
replaces a falsy (undefined or empty) prefix by `'subtitle'`. -/
def downloadSRTName (fileName : Option String) : String :=
  match fileName with
  | none => "subtitle" ++ ".srt"
  | some name =>
      let first := (jsSplitDot name).headD ""
      (if first = "" then "subtitle" else first) ++ ".srt"

/-- The slice of a browser `File` object the App component reads:
`name`, `size` (bytes) and `type` (declared media type, possibly `""`). -/
structure AppFile where
  name : String
  size : Nat
  type : String
  deriving Repr, DecidableEq

/-- The `status` field of `ProcessingState` from `src/types`
(part_000). -/
inductive Status where
  | idle | uploading | analyzing | completed | error
  deriving Repr, DecidableEq

/-- The App component's state relevant to the claims: the `file`,
`segments` and `processingState` `useState` hooks (part_001 lines
10-13).  `message` is the optional message of `ProcessingState`. -/
structure AppState where
  file : Option AppFile
  segments : List SubtitleSegment
  status : Status
  message : Option String
  deriving Repr, DecidableEq

/-- `MAX_FILE_SIZE = 15 * 1024 * 1024` (part_001 line 7). -/
def maxFileSize : Nat := 15 * 1024 * 1024

/-- `handleFileChange` (part_001 lines 29-41) applied to the selected
file `f`: an oversized file triggers only an `alert` and an early
`return` (no state change); otherwise the file is stored, segments are
cleared and the status is reset to `idle`.  No media-type check is
performed on picker selection. -/
def handleFileChange (st : AppState) (f : AppFile) : AppState :=
  if f.size > maxFileSize then st
  else { st with file := some f, segments := [], status := .idle, message := none }

/-- JavaScript `s.startsWith(pre)`: whether the characters of `pre`
are a prefix of the characters of `s` (the declared-type check of
`handleDrop`). -/
def jsStartsWith (s pre : String) : Bool :=
  pre.data.isPrefixOf s.data

/-- `handleDrop` (part_001 lines 43-61) applied to the dropped file `f`:
the file is considered only if its declared type starts with `audio/` or
`video/`; then the same size check and state updates as the picker path.
A wrong-type or oversized drop only triggers an `alert` (no state
change). -/
def handleDrop (st : AppState) (f : AppFile) : AppState :=
  if jsStartsWith f.type "audio/" || jsStartsWith f.type "video/" then
    if f.size > maxFileSize then st
    else { st with file := some f, segments := [], status := .idle, message := none }
  else st

/-- `const mimeType = file.type || 'audio/mp3'` (part_001 line 70): the
media type `processAudio` submits with the transcription request —
the declared type, or the fallback `'audio/mp3'` when it is the empty
(falsy) string. -/
def processAudioMimeType (f : AppFile) : String :=
  if f.type = "" then "audio/mp3" else f.type

/-- The UI actions and `processAudio` steps that drive the App state
(part_001).  `processAudio` is async with two awaits, so it contributes
three transitions: entering `uploading`, the base64 step resolving
(entering `analyzing`) or rejecting, and the transcription call
resolving with segments or rejecting with an error message. -/
inductive UIEvent where
  | fileChange (f : AppFile)
  | drop (f : AppFile)
  | beginAnalysis
  | prepareOk
  | prepareErr (msg : String)
  | transcribeOk (result : List SubtitleSegment)
  | transcribeErr (msg : String)
  | removeFile
  | retry

/-- One transition of the App state machine.  Guards mirror the source:
`beginAnalysis` requires a file (`if (!file) return`, line 64) and
status `idle` (the start button is rendered only under
`processingState.status === 'idle'`, line 223); the `processAudio`
continuations follow the sequential await chain (lines 66-86); `retry`
is the error-overlay button (line 263), rendered only when status is
`error` (line 255); `removeFile` is the remove button (line 218). -/
def step (st : AppState) : UIEvent → AppState
  | .fileChange f => handleFileChange st f
  | .drop f => handleDrop st f
  | .beginAnalysis =>
      if st.file.isSome ∧ st.status = .idle then
        { st with status := .uploading, message := some "正在准备音频..." }
      else st
  | .prepareOk =>
      if st.status = .uploading then
        { st with status := .analyzing, message := some "Gemini 正在聆听并翻译..." }
      else st
  | .prepareErr msg =>
      if st.status = .uploading then
        { st with status := .error, message := some msg }
      else st
  | .transcribeOk result =>
      if st.status = .analyzing then
        { st with segments := result, status := .completed, message := none }
      else st
  | .transcribeErr msg =>
      if st.status = .analyzing then
        { st with status := .error, message := some msg }
      else st
  | .removeFile => { st with file := none, segments := [], status := .idle, message := none }
  | .retry =>
      if st.status = .error then { st with status := .idle, message := none } else st

/-- The initial App state (part_001 lines 10-13): no file, no segments,
status `idle`. -/
def initState : AppState :=
  { file := none, segments := [], status := .idle, message := none }

/-- States reachable from the initial state by UI actions. -/
inductive Reachable : AppState → Prop where
  | init : Reachable initState
  | step {st : AppState} (ev : UIEvent) : Reachable st → Reachable (step st ev)

/-- One element of the JSON array the service returns
(`JSON.parse(jsonText)` in `src/services/gemini.ts`).  The response
schema requires `startMs`, `endMs`, `original`, `translation`; `id`
models an extra `id` field the raw service output might carry (the
mapping ignores it). -/
structure RawItem where
  id : Option Nat
  startMs : Nat
  endMs : Nat
  original : String
  translation : String
  deriving Repr, DecidableEq

/-- The remote call's result, as far as `transcribeAudio` inspects it:
`text` is `response.text` (`undefined` modelled as `none`), and
`parsed` models `JSON.parse(response.text)` for a non-empty text — the
response is schema-constrained to a JSON array of objects, so the parse
result is an array of `RawItem`s. -/
structure GenResponse where
  text : Option String
  parsed : List RawItem

/-- The error kinds of the transcription client (spec §7): the missing
API-key error thrown at `src/services/gemini.ts` line 13 (configuration)
and the empty-response error thrown at line 68 (service). -/
inductive TranscribeError where
  | configuration
  | service
  deriving Repr, DecidableEq

/-- `transcribeAudio` from `src/services/gemini.ts`, with the network
modelled by the oracle `response` (what one `generateContent` call would
return).  The second component counts outbound network calls: `0` when
the key check throws before the client is even constructed, `1` once
`generateContent` is awaited.  `!apiKey` on a string is true exactly for
`""`; `!jsonText` is true for `undefined` and `""`.  On success the
parsed array is mapped to segments with 1-based sequential ids
(lines 74-80). -/
def transcribeAudio (base64Audio mimeType apiKey : String)
    (response : GenResponse) : Except TranscribeError (List SubtitleSegment) × Nat :=
  if apiKey = "" then (Except.error .configuration, 0)
  else
    match response.text with
    | none => (Except.error .service, 1)
    | some jsonText =>
        if jsonText = "" then (Except.error .service, 1)
        else
          (Except.ok (response.parsed.mapIdx fun index item =>
            { id := index + 1
              startMs := item.startMs
              endMs := item.endMs
              original := item.original
              translation := item.translation }), 1)

/-- Checks that a string has the SRT timestamp shape `DD:DD:DD,DDD`:
twelve characters, digits in the hour/minute/second/millisecond
positions, separated by `:`, `:`, `,`. -/
def srtShape (s : String) : Bool :=
  match s.data with
  | [h1, h2, c1, m1, m2, c2, s1, s2, c3, t1, t2, t3] =>
      h1.isDigit && h2.isDigit && c1 = ':' && m1.isDigit && m2.isDigit &&
        c2 = ':' && s1.isDigit && s2.isDigit && c3 = ',' &&
        t1.isDigit && t2.isDigit && t3.isDigit
  | _ => false

/-- `pad2 n` consists of exactly two digit characters. -/
def digits2 (n : Nat) : Bool :=
  match (pad2 n).data with
  | [a, b] => a.isDigit && b.isDigit
  | _ => false

/-- `pad3 n` consists of exactly three digit characters. -/
def digits3 (n : Nat) : Bool :=
  match (pad3 n).data with
  | [a, b, c] => a.isDigit && b.isDigit && c.isDigit
  | _ => false

/-! ## Helper lemmas -/

/-- The head of `jsSplitDot.go cs acc` is the pending chunk followed by the
characters of `cs` up to the first dot. -/
theorem jsSplitDot_go_headD (cs : List Char) (acc : List Char) :
    (jsSplitDot.go cs acc).headD [] = acc.reverse ++ cs.takeWhile (fun c => c ≠ '.') := by
  induction cs generalizing acc with
  | nil => simp [jsSplitDot.go]
  | cons c rest ih =>
    by_cases hc : c = '.'
    · subst hc
      simp [jsSplitDot.go, List.takeWhile_cons]
    · rw [show jsSplitDot.go (c :: rest) acc = jsSplitDot.go rest (c :: acc) from by
        simp [jsSplitDot.go, hc]]
      rw [ih]
      simp [List.takeWhile_cons, hc]

/-- `jsSplitDot.go` never returns an empty list of chunks (JavaScript
`split` always returns at least one element). -/
theorem jsSplitDot_go_ne_nil (cs : List Char) (acc : List Char) :
    jsSplitDot.go cs acc ≠ [] := by
  induction cs generalizing acc with
  | nil => simp [jsSplitDot.go]
  | cons c rest ih =>
    simp only [jsSplitDot.go]
    split
    · simp
    · exact ih _

/-- The first chunk of `jsSplitDot s` is the text of `s` before its first
dot. -/
theorem jsSplitDot_headD (s : String) :
    (jsSplitDot s).headD "" = String.mk (s.data.takeWhile fun c => c ≠ '.') := by
  unfold jsSplitDot
  cases e : jsSplitDot.go s.data [] with
  | nil => exact absurd e (jsSplitDot_go_ne_nil _ _)
  | cons h t =>
    have h1 := jsSplitDot_go_headD s.data []
    rw [e] at h1
    simp at h1
    simp [e, h1]

/-- State-machine invariant: in every reachable state whose status is not
`completed`, the segment list is empty.  Segments are only ever written
together with the `completed` status (the `transcribeOk` continuation);
every other transition preserves or clears them. -/
theorem reachable_inv {st : AppState} (h : Reachable st) :
    st.status ≠ .completed → st.segments = [] := by
  induction h with
  | init => intro _; rfl
  | @step st ev h ih =>
    cases ev with
    | fileChange f =>
      simp only [step, handleFileChange]
      split
      · exact ih
      · intro _; rfl
    | drop f =>
      simp only [step, handleDrop]
      split
      · split
        · exact ih
        · intro _; rfl
      · exact ih
    | beginAnalysis =>
      simp only [step]
      split
      · next hguard =>
        intro _
        exact ih (by rw [hguard.2]; simp)
      · exact ih
    | prepareOk =>
      simp only [step]
      split
      · next hguard => intro _; exact ih (by rw [hguard]; simp)
      · exact ih
    | prepareErr msg =>
      simp only [step]
      split
      · next hguard => intro _; exact ih (by rw [hguard]; simp)
      · exact ih
    | transcribeOk result =>
      simp only [step]
      split
      · intro hne; exact absurd rfl hne
      · exact ih
    | transcribeErr msg =>
      simp only [step]
      split
      · next hguard => intro _; exact ih (by rw [hguard]; simp)
      · exact ih
    | removeFile => intro _; rfl
    | retry =>
      simp only [step]
      split
      · next hguard => intro _; exact ih (by rw [hguard]; simp)
      · exact ih

/-- Every value below 100 pads to two digit characters. -/
theorem digits2_lt : ∀ n < 100, digits2 n = true := by decide

/-- Every value below 1000 pads to three digit characters. -/
theorem digits3_lt : ∀ n < 1000, digits3 n = true := by decide

/-- `pad2` of a value below 100 has exactly two characters. -/
theorem pad2_len : ∀ n < 100, (pad2 n).data.length = 2 := by decide

/-- Unfolds `digits2` into the existence of the two digit characters. -/
theorem digits2_spec (n : Nat) (h : digits2 n = true) :
    ∃ a b, (pad2 n).data = [a, b] ∧ a.isDigit ∧ b.isDigit := by
  unfold digits2 at h
  split at h
  · next a b heq => exact ⟨a, b, heq, by simpa using h⟩
  · simp at h

/-- Unfolds `digits3` into the existence of the three digit characters. -/
theorem digits3_spec (n : Nat) (h : digits3 n = true) :
    ∃ a b c, (pad3 n).data = [a, b, c] ∧ a.isDigit ∧ b.isDigit ∧ c.isDigit := by
  unfold digits3 at h
  split at h
  · next a b c heq =>
    refine ⟨a, b, c, heq, ?_⟩
    simpa [and_assoc] using h
  · simp at h

/-- The characters of `formatTime ms`, as the concatenation of its four
zero-padded fields and three separators. -/
theorem formatTime_data (ms : Nat) :
    (formatTime ms).data =
      (pad2 (ms / 3600000 % 24)).data ++ ':' :: ((pad2 (ms / 60000 % 60)).data ++
        ':' :: ((pad2 (ms / 1000 % 60)).data ++ ',' :: (pad3 (ms % 1000)).data)) := by
  simp [formatTime, String.data_append]

/-- Every `formatTime` output has the `DD:DD:DD,DDD` shape. -/
theorem srtShape_formatTime (ms : Nat) : srtShape (formatTime ms) = true := by
  obtain ⟨a, b, hab, ha, hb⟩ :=
    digits2_spec (ms / 3600000 % 24) (digits2_lt (ms / 3600000 % 24) (by omega))
  obtain ⟨c, d, hcd, hc, hd⟩ :=
    digits2_spec (ms / 60000 % 60) (digits2_lt (ms / 60000 % 60) (by omega))
  obtain ⟨e, f, hef, he, hf⟩ :=
    digits2_spec (ms / 1000 % 60) (digits2_lt (ms / 1000 % 60) (by omega))
  obtain ⟨g, h, i, hghi, hg, hh, hi⟩ :=
    digits3_spec (ms % 1000) (digits3_lt (ms % 1000) (by omega))
  have hdata := formatTime_data ms
  rw [hab, hcd, hef, hghi] at hdata
  simp only [List.cons_append, List.nil_append] at hdata
  unfold srtShape
  rw [hdata]
  simp [ha, hb, hc, hd, he, hf, hg, hh, hi]

/-- The first two characters of `formatTime ms` are the padded hours
field `ms / 3600000 % 24`. -/
theorem formatTime_take2 (ms : Nat) :
    (formatTime ms).data.take 2 = (pad2 (ms / 3600000 % 24)).data := by
  rw [formatTime_data, ← pad2_len (ms / 3600000 % 24) (by omega), List.take_left]

/-- `formatTime` is periodic with period 24 hours: the hours field is
taken modulo 24, so whole days vanish from the output. -/
theorem formatTime_period (ms : Nat) : formatTime (ms + 86400000) = formatTime ms := by
  unfold formatTime
  have h1 : (ms + 86400000) / 3600000 % 24 = ms / 3600000 % 24 := by omega
  have h2 : (ms + 86400000) / 60000 % 60 = ms / 60000 % 60 := by omega
  have h3 : (ms + 86400000) / 1000 % 60 = ms / 1000 % 60 := by omega
  have h4 : (ms + 86400000) % 1000 = ms % 1000 := by omega
  rw [h1, h2, h3, h4]

/-! ## Claim theorems -/

/-- Claim C8: `formatTime 0 = "00:00:00,000"`,
`formatTime 3661005 = "01:01:01,005"` and
`formatTime 59999 = "00:00:59,999"` — the millisecond offset is
decomposed with zero offset (UTC) and each field is zero-padded, hours,
minutes and seconds to 2 digits and milliseconds to 3, joined as
`HH:MM:SS,mmm`. -/
theorem formatTime_reference_values :
    formatTime 0 = "00:00:00,000" ∧ formatTime 3661005 = "01:01:01,005" ∧
      formatTime 59999 = "00:00:59,999" :=
  ⟨rfl, rfl, rfl⟩

/-- Claim C9: every `formatTime` output matches the shape `DD:DD:DD,DDD`
and its hours field is the two-digit padding of `ms / 3600000 % 24`, so
durations of 24 hours or more silently wrap: adding a whole day leaves
the output unchanged, and `formatTime 86400000` is `"00:00:00,000"`,
not `"24:00:00,000"`. -/
theorem formatTime_wraps_at_24_hours :
    (∀ ms : Nat, srtShape (formatTime ms) = true) ∧
    (∀ ms : Nat, (formatTime ms).data.take 2 = (pad2 (ms / 3600000 % 24)).data) ∧
    (∀ ms : Nat, formatTime (ms + 86400000) = formatTime ms) ∧
    formatTime 86400000 = "00:00:00,000" ∧ formatTime 86400000 ≠ "24:00:00,000" :=
  ⟨srtShape_formatTime, formatTime_take2, formatTime_period, rfl, by decide⟩

/-- Claim C1, counterexample: on the two-segment input, `generateSRT`
does not return the claimed string that ends right after the final
translation line — each block's template literal ends in a newline, so
the joined output carries a trailing newline. -/
theorem generateSRT_no_trailing_newline_refuted :
    generateSRT [⟨1, 0, 1000, "Hi", "嗨"⟩, ⟨2, 1000, 2500, "Bye", "再见"⟩] ≠
      "1\n00:00:00,000 --> 00:00:01,000\nHi\n嗨\n\n2\n00:00:01,000 --> 00:00:02,500\nBye\n再见" := by
  decide

/-- Claim C1, amended: on the two-segment input, `generateSRT` returns
the claimed blocks separated by exactly one blank line, but with a
single trailing newline after the final segment's translation line. -/
theorem generateSRT_two_segment_blocks :
    generateSRT [⟨1, 0, 1000, "Hi", "嗨"⟩, ⟨2, 1000, 2500, "Bye", "再见"⟩] =
      "1\n00:00:00,000 --> 00:00:01,000\nHi\n嗨\n\n2\n00:00:01,000 --> 00:00:02,500\nBye\n再见\n" :=
  rfl

/-- Claim C2, counterexample: the download name is not the original
name with only its final extension removed — `"my.audio.file.mp3"`
does not yield `"my.audio.file.srt"`. -/
theorem downloadSRTName_final_extension_refuted :
    downloadSRTName (some "my.audio.file.mp3") ≠ "my.audio.file.srt" := by
  decide

/-- Claim C2, amended: the downloaded SRT file is named after the part
of the original file name before its FIRST dot (`name.split('.')[0]`),
with `.srt` appended — so `"my.audio.file.mp3"` yields `"my.srt"` — and
`"subtitle.srt"` is used when no name is available or the part before
the first dot is empty. -/
theorem downloadSRTName_before_first_dot :
    downloadSRTName none = "subtitle.srt" ∧
    downloadSRTName (some "my.audio.file.mp3") = "my.srt" ∧
    (∀ s : String, s.data.takeWhile (fun c => c ≠ '.') ≠ [] →
      downloadSRTName (some s) =
        String.mk (s.data.takeWhile fun c => c ≠ '.') ++ ".srt") ∧
    (∀ s : String, s.data.takeWhile (fun c => c ≠ '.') = [] →
      downloadSRTName (some s) = "subtitle.srt") := by
  refine ⟨rfl, by decide, ?_, ?_⟩
  · intro s hne
    show (let first := (jsSplitDot s).headD ""
      (if first = "" then "subtitle" else first) ++ ".srt") = _
    rw [jsSplitDot_headD]
    have : String.mk (s.data.takeWhile fun c => c ≠ '.') ≠ "" := by
      intro hcontra
      exact hne (by simpa using congrArg String.data hcontra)
    show (if String.mk (s.data.takeWhile fun c => c ≠ '.') = "" then "subtitle"
      else String.mk (s.data.takeWhile fun c => c ≠ '.')) ++ ".srt" = _
    rw [if_neg this]
  · intro s hnil
    show (let first := (jsSplitDot s).headD ""
      (if first = "" then "subtitle" else first) ++ ".srt") = _
    rw [jsSplitDot_headD, hnil]
    rfl

/-- Witness for the amended C2 theorem at concrete inputs. -/
theorem downloadSRTName_before_first_dot_witness :
    downloadSRTName (some "track.mp3") =
      String.mk ("track.mp3".data.takeWhile fun c => c ≠ '.') ++ ".srt" ∧
    downloadSRTName (some ".gitignore") = "subtitle.srt" :=
  ⟨downloadSRTName_before_first_dot.2.2.1 "track.mp3" (by decide),
   downloadSRTName_before_first_dot.2.2.2 ".gitignore" (by decide)⟩

/-- Claim C3: a selected file of exactly `15 * 1024 * 1024` bytes is
accepted (picker unconditionally, drop when the declared type begins
with `audio/` or `video/`), while a file one byte larger is rejected
with no change at all to the state — in particular file, segments and
processing status are untouched and no transition towards the
transcription client occurs (only `processAudio` ever invokes it, from
an accepted `idle` state).  Drag-and-drop additionally rejects, with no
state change, any file whose declared type begins with neither `audio/`
nor `video/`; the picker applies no type check. -/
theorem file_size_boundary :
    (∀ (st : AppState) (f : AppFile), f.size = maxFileSize →
      handleFileChange st f =
        { st with file := some f, segments := [], status := .idle, message := none } ∧
      (jsStartsWith f.type "audio/" = true ∨ jsStartsWith f.type "video/" = true →
        handleDrop st f =
          { st with file := some f, segments := [], status := .idle, message := none })) ∧
    (∀ (st : AppState) (f : AppFile), f.size = maxFileSize + 1 →
      handleFileChange st f = st ∧ handleDrop st f = st) ∧
    (∀ (st : AppState) (f : AppFile), jsStartsWith f.type "audio/" = false →
      jsStartsWith f.type "video/" = false → handleDrop st f = st) := by
  refine ⟨?_, ?_, ?_⟩
  · intro st f hsz
    constructor
    · unfold handleFileChange
      split
      · next hgt => exact absurd hsz (by omega)
      · rfl
    · intro hty
      have hcond : (jsStartsWith f.type "audio/" || jsStartsWith f.type "video/") = true := by
        rcases hty with h | h <;> simp [h]
      unfold handleDrop
      rw [if_pos hcond]
      split
      · next hgt => exact absurd hsz (by omega)
      · rfl
  · intro st f hsz
    constructor
    · unfold handleFileChange
      split
      · rfl
      · next hle => exact absurd hsz (by omega)
    · unfold handleDrop
      split
      · split
        · rfl
        · next hle => exact absurd hsz (by omega)
      · rfl
  · intro st f ha hv
    unfold handleDrop
    rw [ha, hv]
    rfl

/-- Witness for the C3 theorem: the boundary sizes at concrete files
and the wrong-type drop at a concrete file. -/
theorem file_size_boundary_witness :
    handleFileChange initState ⟨"a.mp3", 15 * 1024 * 1024, "audio/mpeg"⟩ =
      { initState with
        file := some ⟨"a.mp3", 15 * 1024 * 1024, "audio/mpeg"⟩,
        segments := [], status := .idle, message := none } ∧
    handleFileChange initState ⟨"b.mp3", 15 * 1024 * 1024 + 1, "audio/mpeg"⟩ = initState ∧
    handleDrop initState ⟨"c.txt", 10, "text/plain"⟩ = initState :=
  ⟨(file_size_boundary.1 initState _ rfl).1,
   (file_size_boundary.2.1 initState _ rfl).1,
   file_size_boundary.2.2 initState _ (by decide) (by decide)⟩

/-- Claim C4: in every state reachable by UI actions the segment list
is non-empty only when the status is `completed`, and every accepted
file selection — picker or drop — sets the segments to `[]` and the
status to `idle`. -/
theorem segments_only_when_completed :
    (∀ st : AppState, Reachable st → st.segments ≠ [] → st.status = .completed) ∧
    (∀ (st : AppState) (f : AppFile), f.size ≤ maxFileSize →
      (handleFileChange st f).segments = [] ∧ (handleFileChange st f).status = .idle) ∧
    (∀ (st : AppState) (f : AppFile), f.size ≤ maxFileSize →
      (jsStartsWith f.type "audio/" = true ∨ jsStartsWith f.type "video/" = true) →
      (handleDrop st f).segments = [] ∧ (handleDrop st f).status = .idle) := by
  refine ⟨?_, ?_, ?_⟩
  · intro st h hne
    by_contra hc
    exact hne (reachable_inv h hc)
  · intro st f hsz
    unfold handleFileChange
    split
    · next hgt => exact absurd hsz (by omega)
    · exact ⟨rfl, rfl⟩
  · intro st f hsz hty
    have hcond : (jsStartsWith f.type "audio/" || jsStartsWith f.type "video/") = true := by
      rcases hty with h | h <;> simp [h]
    unfold handleDrop
    rw [if_pos hcond]
    split
    · next hgt => exact absurd hsz (by omega)
    · exact ⟨rfl, rfl⟩

/-- Witness for the C4 theorem: a concrete run (select a file, start
the analysis, let both awaits resolve) reaches a state with non-empty
segments, whose status the theorem forces to `completed`; and concrete
accepted selections produce empty segments and `idle` status. -/
theorem segments_only_when_completed_witness :
    (step (step (step (step initState
        (.fileChange ⟨"a.mp3", 3, "audio/mpeg"⟩)) .beginAnalysis) .prepareOk)
      (.transcribeOk [⟨1, 0, 5, "hi", "你好"⟩])).status = .completed ∧
    (handleFileChange initState ⟨"a.mp3", 3, "audio/mpeg"⟩).segments = [] ∧
    (handleDrop initState ⟨"a.mp3", 3, "audio/mpeg"⟩).status = .idle := by
  refine ⟨?_, ?_, ?_⟩
  · exact segments_only_when_completed.1 _
      (Reachable.step _ (Reachable.step _ (Reachable.step _
        (Reachable.step _ Reachable.init)))) (by decide)
  · exact (segments_only_when_completed.2.1 initState _ (by decide)).1
  · exact (segments_only_when_completed.2.2 initState _ (by decide) (Or.inl (by decide))).2

/-- Claim C5: for every audio payload and media type, calling the
transcription client with an empty API key fails with the configuration
error and performs zero network calls — the key check throws before the
client is constructed or any request goes out. -/
theorem empty_api_key_fails_without_network :
    ∀ (b m : String) (resp : GenResponse),
      transcribeAudio b m "" resp = (Except.error .configuration, 0) :=
  fun _ _ _ => rfl

/-- Claim C6: whenever the remote call's response text is absent or
empty, the transcription client fails with the service error; and in
every reachable state in which that error lands (status `analyzing`),
the segment list is empty and the error transition leaves it empty — no
partial segments are surfaced on that path. -/
theorem empty_response_service_error :
    (∀ (b m k : String) (resp : GenResponse), k ≠ "" →
      resp.text = none ∨ resp.text = some "" →
      (transcribeAudio b m k resp).1 = Except.error .service) ∧
    (∀ (st : AppState) (msg : String), Reachable st → st.status = .analyzing →
      st.segments = [] ∧ (step st (.transcribeErr msg)).segments = []) := by
  constructor
  · intro b m k resp hk ht
    unfold transcribeAudio
    rcases ht with ht | ht <;> simp [hk, ht]
  · intro st msg hr hst
    have hempty : st.segments = [] := reachable_inv hr (by rw [hst]; simp)
    refine ⟨hempty, ?_⟩
    simp only [step]
    split <;> exact hempty

/-- Witness for the C6 theorem: a concrete absent-text response fails
with the service error, and a concrete reachable `analyzing` state has
empty segments before and after the error transition. -/
theorem empty_response_service_error_witness :
    (transcribeAudio "" "audio/mp3" "key" ⟨none, []⟩).1 = Except.error .service ∧
    ((step (step (step initState (.fileChange ⟨"a.mp3", 3, "audio/mpeg"⟩))
        .beginAnalysis) .prepareOk).segments = [] ∧
      (step (step (step (step initState (.fileChange ⟨"a.mp3", 3, "audio/mpeg"⟩))
        .beginAnalysis) .prepareOk) (.transcribeErr "boom")).segments = []) :=
  ⟨empty_response_service_error.1 "" "audio/mp3" "key" ⟨none, []⟩ (by decide) (Or.inl rfl),
   empty_response_service_error.2 _ "boom"
     (Reachable.step _ (Reachable.step _ (Reachable.step _ Reachable.init))) (by decide)⟩

/-- Claim C7: for every successfully parsed response array the client
returns one segment per element in the same order, assigning each
segment's `id` as its 1-based position and ignoring any `id` field of
the raw output (the quantification is over all raw `id` values); the
array is passed through index-by-index, neither re-sorted nor validated
against timestamp order (the elements' timestamps are unconstrained). -/
theorem sequential_ids_ignore_raw_id :
    ∀ (b m k t : String) (resp : GenResponse), k ≠ "" → resp.text = some t → t ≠ "" →
      ∃ segs, (transcribeAudio b m k resp).1 = Except.ok segs ∧
        segs.length = resp.parsed.length ∧
        ∀ (i : Nat) (h1 : i < segs.length) (h2 : i < resp.parsed.length),
          segs.get ⟨i, h1⟩ =
            { id := i + 1,
              startMs := (resp.parsed.get ⟨i, h2⟩).startMs,
              endMs := (resp.parsed.get ⟨i, h2⟩).endMs,
              original := (resp.parsed.get ⟨i, h2⟩).original,
              translation := (resp.parsed.get ⟨i, h2⟩).translation } := by
  intro b m k t resp hk ht hne
  refine ⟨resp.parsed.mapIdx fun index item =>
    { id := index + 1, startMs := item.startMs, endMs := item.endMs,
      original := item.original, translation := item.translation }, ?_, ?_, ?_⟩
  · unfold transcribeAudio
    simp [hk, ht, hne]
  · exact List.length_mapIdx
  · intro i h1 h2
    rw [List.get_mapIdx resp.parsed _ i h2 h1]

/-- Witness for the C7 theorem: a concrete response whose single raw
element carries a stray `id` 99 and reversed timestamps still maps to a
segment with `id` 1 and the element's own fields. -/
theorem sequential_ids_ignore_raw_id_witness :
    ∃ segs, (transcribeAudio "a" "audio/mp3" "key"
        ⟨some "x", [⟨some 99, 5, 2, "o", "t"⟩]⟩).1 = Except.ok segs ∧
      segs.length = ([⟨some 99, 5, 2, "o", "t"⟩] : List RawItem).length ∧
      ∀ (i : Nat) (h1 : i < segs.length)
          (h2 : i < ([⟨some 99, 5, 2, "o", "t"⟩] : List RawItem).length),
        segs.get ⟨i, h1⟩ =
          { id := i + 1,
            startMs := (([⟨some 99, 5, 2, "o", "t"⟩] : List RawItem).get ⟨i, h2⟩).startMs,
            endMs := (([⟨some 99, 5, 2, "o", "t"⟩] : List RawItem).get ⟨i, h2⟩).endMs,
            original := (([⟨some 99, 5, 2, "o", "t"⟩] : List RawItem).get ⟨i, h2⟩).original,
            translation :=
              (([⟨some 99, 5, 2, "o", "t"⟩] : List RawItem).get ⟨i, h2⟩).translation } :=
  sequential_ids_ignore_raw_id "a" "audio/mp3" "key" "x"
    ⟨some "x", [⟨some 99, 5, 2, "o", "t"⟩]⟩ (by decide) rfl (by decide)

/-- Claim C10: when the selected file's declared media type is the
empty string, `processAudio` submits the fallback type `audio/mp3`;
every non-empty declared type is passed through unchanged. -/
theorem mime_type_fallback :
    (∀ f : AppFile, f.type = "" → processAudioMimeType f = "audio/mp3") ∧
    (∀ f : AppFile, f.type ≠ "" → processAudioMimeType f = f.type) := by
  constructor
  · intro f h
    simp [processAudioMimeType, h]
  · intro f h
    simp [processAudioMimeType, h]

/-- Witness for the C10 theorem at concrete files. -/
theorem mime_type_fallback_witness :
    processAudioMimeType ⟨"a.mp3", 3, ""⟩ = "audio/mp3" ∧
    processAudioMimeType ⟨"a.mp4", 3, "video/mp4"⟩ = "video/mp4" :=
  ⟨mime_type_fallback.1 ⟨"a.mp3", 3, ""⟩ rfl,
   mime_type_fallback.2 ⟨"a.mp4", 3, "video/mp4"⟩ (by decide)⟩

end AudioSub
